import Mathlib

/-!
Verification of the crate-run container runtime (a small Rust Linux container
runtime) against its natural-language specification.

Rust `&str` / `String` values are modelled as `List Char`; Rust `str::len()`
(a UTF-8 byte count) is modelled by `strBytes`.  Fallible operations return
`Except` or `Option`; a Rust panic is modelled as `Option.none`.
-/

namespace CrateRun

/-- UTF-8 encoded size in bytes of one character (Rust `char::len_utf8`). -/
def utf8Len (c : Char) : Nat :=
  if c.toNat < 0x80 then 1
  else if c.toNat < 0x800 then 2
  else if c.toNat < 0x10000 then 3
  else 4

/-- Rust `str::len()`: the UTF-8 byte length of a string. -/
def strBytes (s : List Char) : Nat :=
  (s.map utf8Len).sum

/-- Decimal digit character for `d < 10`. -/
def digitChar (d : Nat) : Char :=
  Char.ofNat (48 + d)

/-- Helper for `natDigits`: structural recursion on a fuel argument (the fuel
`n + 1` always suffices, since a number has at most `n + 1` decimal digits). -/
def natDigitsAux : Nat → Nat → List Char
  | 0, _ => []
  | fuel + 1, n =>
      if n < 10 then [digitChar n]
      else natDigitsAux fuel (n / 10) ++ [digitChar (n % 10)]

/-- Decimal rendering of a natural number, as Rust `u32::to_string` /
`usize::to_string` produce (most significant digit first, no sign). -/
def natDigits (n : Nat) : List Char :=
  natDigitsAux (n + 1) n

/-! ## `src/core/id.rs` -/

/-- Rust `char::is_ascii_hexdigit`: `0-9`, `A-F` or `a-f`. -/
def isAsciiHexdigit (c : Char) : Bool :=
  (48 ≤ c.toNat && c.toNat ≤ 57) ||
  (65 ≤ c.toNat && c.toNat ≤ 70) ||
  (97 ≤ c.toNat && c.toNat ≤ 102)

/-- Rust `char::is_ascii_uppercase`: `A-Z`. -/
def isAsciiUppercase (c : Char) : Bool :=
  65 ≤ c.toNat && c.toNat ≤ 90

/-- Maximal container-ID length (`id.rs`, `ID_LEN`). -/
def ID_LEN : Nat := 16

/-- `id.rs`, `validate_id_prefix`: non-empty, at most `ID_LEN` bytes long, and
every character an ASCII hex digit that is not ASCII uppercase. -/
def validate_id_prefix (s : List Char) : Bool :=
  !s.isEmpty && strBytes s ≤ ID_LEN
    && s.all (fun c => isAsciiHexdigit c && !(isAsciiUppercase c))

/-- The spec's character class `[0-9a-f]` (code points 48-57 and 97-102). -/
def hexLowerChar (c : Char) : Prop :=
  (48 ≤ c.toNat ∧ c.toNat ≤ 57) ∨ (97 ≤ c.toNat ∧ c.toNat ≤ 102)

instance (c : Char) : Decidable (hexLowerChar c) := by
  unfold hexLowerChar; infer_instance

theorem utf8Len_of_hexLower {c : Char} (h : hexLowerChar c) : utf8Len c = 1 := by
  rcases h with ⟨_, h2⟩ | ⟨_, h2⟩ <;> simp [utf8Len] <;> omega

theorem strBytes_of_hexLower {s : List Char} (h : ∀ c ∈ s, hexLowerChar c) :
    strBytes s = s.length := by
  induction s with
  | nil => rfl
  | cons c t ih =>
      have hc : utf8Len c = 1 := utf8Len_of_hexLower (h c (by simp))
      have ht := ih (fun x hx => h x (by simp [hx]))
      simp [strBytes] at ht ⊢
      omega

theorem hexdigit_not_upper_iff (c : Char) :
    (isAsciiHexdigit c && !(isAsciiUppercase c)) = true ↔ hexLowerChar c := by
  simp [isAsciiHexdigit, isAsciiUppercase, hexLowerChar]
  omega

/-- C8: `validate_id_prefix s` is `true` iff `1 ≤ len s ≤ 16` and every
character of `s` lies in `[0-9a-f]`. -/
theorem validate_id_prefix_iff (s : List Char) :
    validate_id_prefix s = true ↔
      (1 ≤ s.length ∧ s.length ≤ 16 ∧ ∀ c ∈ s, hexLowerChar c) := by
  unfold validate_id_prefix
  simp only [Bool.and_eq_true, List.all_eq_true, Bool.not_eq_true']
  constructor
  · rintro ⟨⟨hne, hlen⟩, hall⟩
    have hall' : ∀ c ∈ s, hexLowerChar c :=
      fun c hc => (hexdigit_not_upper_iff c).mp (by
        have := hall c hc
        simpa using this)
    have hb : strBytes s = s.length := strBytes_of_hexLower hall'
    refine ⟨?_, ?_, hall'⟩
    · cases s with
      | nil => simp at hne
      | cons _ _ => simp
    · simp [ID_LEN] at hlen; omega
  · rintro ⟨h1, h2, hall⟩
    have hb : strBytes s = s.length := strBytes_of_hexLower hall
    refine ⟨⟨?_, ?_⟩, ?_⟩
    · cases s with
      | nil => simp at h1
      | cons _ _ => simp
    · simp [ID_LEN]; omega
    · exact fun c hc => by
        have := (hexdigit_not_upper_iff c).mpr (hall c hc)
        simpa using this

/-! ## `src/core/state.rs`: container-ID resolution -/

/-- ASCII single-quote character (code point 39), used in error messages. -/
def squote : Char := Char.ofNat 39

/-- The zero-match error message of `resolve_id`
(`state.rs`: "no container found with ID prefix '{prefix}'"). -/
def noMatchMsg (p : List Char) : List Char :=
  "no container found with ID prefix ".data ++ [squote] ++ p ++ [squote]

/-- The ambiguous-match error message of `resolve_id`
(`state.rs`: "ambiguous container ID prefix '{prefix}': {n} matches ({preview})",
where `preview` is the comma-joined first five matches). -/
def ambiguousMsg (p : List Char) (n : Nat) (preview : List (List Char)) : List Char :=
  "ambiguous container ID prefix ".data ++ [squote] ++ p ++ [squote]
    ++ ": ".data ++ natDigits n ++ " matches (".data
    ++ List.intercalate ", ".data preview ++ ")".data

/-- `state.rs`, `resolve_id`, over an explicit registry `all` (the sorted list
`list_containers` returns): filter the IDs that start with `p`, then match on
the number of matches exactly as the Rust `match matches.len()` does. -/
def resolve_id (all : List (List Char)) (p : List Char) :
    Except (List Char) (List Char) :=
  match all.filter (fun id => p.isPrefixOf id) with
  | [] => .error (noMatchMsg p)
  | [m] => .ok m
  | ms => .error (ambiguousMsg p ms.length (ms.take 5))

theorem noMatchMsg_contains (p : List Char) :
    List.IsInfix "no container found".data (noMatchMsg p) := by
  apply List.IsPrefix.isInfix
  refine ⟨" with ID prefix ".data ++ [squote] ++ p ++ [squote], ?_⟩
  rw [noMatchMsg]
  rw [show ("no container found with ID prefix ".data : List Char)
      = "no container found".data ++ " with ID prefix ".data from by decide]
  simp [List.append_assoc]

/-- C6: with exactly one ID starting with the prefix, `resolve_id` returns that
full ID; with none it fails with a message containing "no container found";
with several it fails with the ambiguous message listing at most 5 matches. -/
theorem resolve_id_spec (all : List (List Char)) (p : List Char) :
    (∀ m, all.filter (fun id => p.isPrefixOf id) = [m] →
        resolve_id all p = .ok m ∧ m ∈ all ∧ p.isPrefixOf m = true)
  ∧ (all.filter (fun id => p.isPrefixOf id) = [] →
        resolve_id all p = .error (noMatchMsg p) ∧
        List.IsInfix "no container found".data (noMatchMsg p))
  ∧ (2 ≤ (all.filter (fun id => p.isPrefixOf id)).length →
        resolve_id all p
          = .error (ambiguousMsg p (all.filter (fun id => p.isPrefixOf id)).length
              ((all.filter (fun id => p.isPrefixOf id)).take 5))
        ∧ ((all.filter (fun id => p.isPrefixOf id)).take 5).length ≤ 5
        ∧ ∀ x ∈ (all.filter (fun id => p.isPrefixOf id)).take 5,
            x ∈ all.filter (fun id => p.isPrefixOf id)) := by
  refine ⟨?_, ?_, ?_⟩
  · intro m hm
    have hmem : m ∈ all.filter (fun id => p.isPrefixOf id) := by simp [hm]
    rw [List.mem_filter] at hmem
    exact ⟨by simp [resolve_id, hm], hmem.1, hmem.2⟩
  · intro h
    exact ⟨by simp [resolve_id, h], noMatchMsg_contains p⟩
  · intro h
    rcases hf : all.filter (fun id => p.isPrefixOf id) with _ | ⟨a, _ | ⟨b, t⟩⟩
    · rw [hf] at h; simp at h
    · rw [hf] at h; simp at h
    · refine ⟨?_, ?_, ?_⟩
      · simp only [resolve_id, hf]
      · simp [List.length_take]
      · intro x hx
        exact List.take_subset 5 _ hx

/-- C6 witness: the three branches of `resolve_id_spec` at the registry of the
repository's own unit test (`state.rs`, `list_and_resolve_containers`). -/
theorem resolve_id_spec_witness :
    (resolve_id ["aabbccdd11223344".data, "aabbccdd55667788".data,
        "11223344aabbccdd".data] "1122".data = .ok "11223344aabbccdd".data
      ∧ "11223344aabbccdd".data ∈ ["aabbccdd11223344".data,
          "aabbccdd55667788".data, "11223344aabbccdd".data]
      ∧ ("1122".data).isPrefixOf "11223344aabbccdd".data = true)
  ∧ (resolve_id ["aabbccdd11223344".data, "aabbccdd55667788".data,
        "11223344aabbccdd".data] "ffff".data = .error (noMatchMsg "ffff".data)
      ∧ List.IsInfix "no container found".data (noMatchMsg "ffff".data))
  ∧ (resolve_id ["aabbccdd11223344".data, "aabbccdd55667788".data,
        "11223344aabbccdd".data] "aabb".data
        = .error (ambiguousMsg "aabb".data
            ((["aabbccdd11223344".data, "aabbccdd55667788".data,
                "11223344aabbccdd".data].filter
              (fun id => ("aabb".data).isPrefixOf id)).length)
            ((["aabbccdd11223344".data, "aabbccdd55667788".data,
                "11223344aabbccdd".data].filter
              (fun id => ("aabb".data).isPrefixOf id)).take 5))
      ∧ ((["aabbccdd11223344".data, "aabbccdd55667788".data,
            "11223344aabbccdd".data].filter
          (fun id => ("aabb".data).isPrefixOf id)).take 5).length ≤ 5
      ∧ ∀ x ∈ (["aabbccdd11223344".data, "aabbccdd55667788".data,
            "11223344aabbccdd".data].filter
          (fun id => ("aabb".data).isPrefixOf id)).take 5,
          x ∈ ["aabbccdd11223344".data, "aabbccdd55667788".data,
            "11223344aabbccdd".data].filter
              (fun id => ("aabb".data).isPrefixOf id)) :=
  ⟨(resolve_id_spec _ _).1 _ (by decide),
   (resolve_id_spec _ _).2.1 (by decide),
   (resolve_id_spec _ _).2.2 (by decide)⟩

/-- C10: `resolve_id` applies no prefix validation: the empty prefix resolves a
singleton registry, and a prefix with a non-`[0-9a-f]` character over a
registry of hex-lowercase IDs yields the "no container found" error, not a
validation error. -/
theorem resolve_id_no_validation :
    (∀ c : List Char, resolve_id [c] [] = .ok c)
  ∧ (∀ (all : List (List Char)) (p : List Char),
      (∀ id ∈ all, ∀ ch ∈ id, hexLowerChar ch) →
      (∃ ch ∈ p, ¬ hexLowerChar ch) →
      resolve_id all p = .error (noMatchMsg p)) := by
  constructor
  · intro c
    simp [resolve_id, List.isPrefixOf]
  · intro all p hall hbad
    have hf : all.filter (fun id => p.isPrefixOf id) = [] := by
      rw [List.filter_eq_nil_iff]
      intro id hid hpre
      have hsub : p ⊆ id := (List.isPrefixOf_iff_prefix.mp hpre).subset
      rcases hbad with ⟨ch, hchp, hch⟩
      exact hch (hall id hid ch (hsub hchp))
    simp [resolve_id, hf]

/-- C10 witness: a singleton registry resolved by the empty prefix, and the
rejected-by-validation prefix "ZZ" reported as "no container found". -/
theorem resolve_id_no_validation_witness :
    resolve_id ["abc123".data] [] = .ok "abc123".data
  ∧ resolve_id ["abc123".data] "ZZ".data = .error (noMatchMsg "ZZ".data) :=
  ⟨resolve_id_no_validation.1 _,
   resolve_id_no_validation.2 ["abc123".data] "ZZ".data
     (by decide) (by decide)⟩

/-! ## `src/core/model.rs`: the data model -/

/-- `model.rs`, `ContainerStatus`. -/
inductive ContainerStatus
  | running
  | stopped
  | created
  deriving DecidableEq, Repr

/-- A UTC timestamp broken into calendar fields, modelling
`chrono::DateTime<Utc>` at the precision `cmd_ps` formats. -/
structure DateTimeUtc where
  year : Nat
  month : Nat
  day : Nat
  hour : Nat
  minute : Nat
  second : Nat
  deriving DecidableEq, Repr

/-- `model.rs`, `ContainerMeta` (persisted JSON record). -/
structure ContainerMeta where
  id : List Char
  rootfs : List Char
  cmd : List (List Char)
  pid : Nat
  exit_code : Option Int
  created_at : DateTimeUtc
  status : ContainerStatus
  hostname : List Char
  memory_limit : Option Nat
  cpu_limit : Option (List Char)
  pids_limit : Option Nat
  deriving DecidableEq, Repr

/-- `model.rs`, `ContainerConfig` (launch configuration). -/
structure ContainerConfig where
  rootfs : List Char
  cmd : List (List Char)
  hostname : List Char
  memory : Option Nat
  cpu : Option (List Char)
  pids : Option Nat
  uid : Option Nat
  gid : Option Nat
  deriving DecidableEq, Repr

/-! ## `src/core/state.rs`: status refresh -/

/-- `state.rs`, `pid_alive`: false for PID 0, otherwise whether `/proc/<pid>`
exists; the `/proc` lookup is the environment, passed in as `procAlive`. -/
def pid_alive (procAlive : Nat → Bool) (pid : Nat) : Bool :=
  if pid = 0 then false else procAlive pid

/-- `state.rs`, `refresh_status`: when status is Running and the PID is no
longer alive, set status to Stopped and save; returns the (possibly updated)
metadata together with whether it was changed — and therefore written. -/
def refresh_status (procAlive : Nat → Bool) (meta : ContainerMeta) :
    ContainerMeta × Bool :=
  if meta.status = ContainerStatus.running ∧ pid_alive procAlive meta.pid = false
  then ({ meta with status := ContainerStatus.stopped }, true)
  else (meta, false)

/-! ## `src/platform/linux/process.rs`: parent-side metadata writes -/

/-- `process.rs`, `parent_process` (metadata save after fork): the record
persisted right after the outer fork.  Note `rootfs := config.rootfs` — the
caller-supplied path, not the canonicalized one. -/
def metaAfterFork (config : ContainerConfig) (container_id : List Char)
    (childPid : Nat) (now : DateTimeUtc) : ContainerMeta :=
  { id := container_id
    rootfs := config.rootfs
    cmd := config.cmd
    pid := childPid
    exit_code := none
    created_at := now
    status := ContainerStatus.running
    hostname := config.hostname
    memory_limit := config.memory
    cpu_limit := config.cpu
    pids_limit := config.pids }

/-- `process.rs`, `parent_process` (post-wait update): after `wait_for_child`
returns, status becomes Stopped, the exit code is recorded, and pid is 0. -/
def metaPostWait (meta : ContainerMeta) (exit_code : Int) : ContainerMeta :=
  { meta with
    status := ContainerStatus.stopped
    exit_code := some exit_code
    pid := 0 }

/-- `process.rs`, `run_container` and `parent_process` combined: before the
fork `run_container` computes `fs::canonicalize(config.rootfs)` (modelled by
the environment function `canon`), which is passed only to the child; the
parent persists `metaAfterFork`, whose `rootfs` is the original string.  The
pair returned is (canonical rootfs, persisted metadata). -/
def runSavedMeta (canon : List Char → List Char) (config : ContainerConfig)
    (container_id : List Char) (childPid : Nat) (now : DateTimeUtc) :
    List Char × ContainerMeta :=
  (canon config.rootfs, metaAfterFork config container_id childPid now)

/-- The metadata invariant exactly as claim C2 states it. -/
def metaInvariant (m : ContainerMeta) : Prop :=
  (m.status = ContainerStatus.running → 0 < m.pid) ∧
  (m.status = ContainerStatus.stopped → m.exit_code.isSome = true ∧ m.pid = 0)

/-- A metadata record for a running container whose process has since died:
status Running, pid 5, no exit code yet. -/
def staleRunningMeta : ContainerMeta :=
  { id := "aabbccdd11223344".data
    rootfs := "/tmp/rootfs".data
    cmd := ["/bin/sh".data]
    pid := 5
    exit_code := none
    created_at := ⟨2026, 10, 12, 0, 0, 0⟩
    status := ContainerStatus.running
    hostname := "craterun".data
    memory_limit := none
    cpu_limit := none
    pids_limit := none }

/-- C2 counterexample: the status-refresh write violates the claim's invariant.
With a dead PID, `refresh_status` saves a record whose status is Stopped while
`pid` stays 5 and `exit_code` stays `none`. -/
theorem refresh_status_violates_claim :
    (refresh_status (fun _ => false) staleRunningMeta).2 = true
  ∧ (refresh_status (fun _ => false) staleRunningMeta).1.status
      = ContainerStatus.stopped
  ∧ (refresh_status (fun _ => false) staleRunningMeta).1.exit_code = none
  ∧ (refresh_status (fun _ => false) staleRunningMeta).1.pid = 5
  ∧ ¬ metaInvariant (refresh_status (fun _ => false) staleRunningMeta).1 := by
  have hr : refresh_status (fun _ => false) staleRunningMeta
      = ({ staleRunningMeta with status := ContainerStatus.stopped }, true) := by
    simp [refresh_status, staleRunningMeta, pid_alive]
  refine ⟨by rw [hr], by rw [hr], by rw [hr]; rfl, by rw [hr]; rfl, ?_⟩
  intro hinv
  have h := (hinv.2 (by rw [hr])).2
  rw [hr] at h
  simp [staleRunningMeta] at h

/-- C2 amended: the invariant holds at the save-after-fork write (given the
child PID from a successful fork is positive) and at the post-wait write; the
status-refresh write changes only `status` (Running to Stopped when the PID is
gone), leaving `pid` and `exit_code` untouched. -/
theorem meta_writes_invariant (config : ContainerConfig) (cid : List Char)
    (childPid : Nat) (now : DateTimeUtc) (hpid : 0 < childPid)
    (m : ContainerMeta) (code : Int) (procAlive : Nat → Bool) :
    metaInvariant (metaAfterFork config cid childPid now)
  ∧ metaInvariant (metaPostWait m code)
  ∧ (refresh_status procAlive m).1.pid = m.pid
  ∧ (refresh_status procAlive m).1.exit_code = m.exit_code
  ∧ ((refresh_status procAlive m).2 = true →
      (refresh_status procAlive m).1.status = ContainerStatus.stopped
      ∧ m.status = ContainerStatus.running
      ∧ pid_alive procAlive m.pid = false) := by
  refine ⟨⟨fun _ => hpid, fun h => by simp [metaAfterFork] at h⟩,
    ⟨fun h => by simp [metaPostWait] at h, fun _ => by simp [metaPostWait]⟩,
    ?_, ?_, ?_⟩ <;> unfold refresh_status <;>
    by_cases hc : m.status = ContainerStatus.running
        ∧ pid_alive procAlive m.pid = false <;>
    simp [hc]

/-- C2 amended witness: the three write sites at concrete inputs. -/
theorem meta_writes_invariant_witness :
    metaInvariant (metaAfterFork
      ⟨"/tmp/rootfs".data, ["/bin/sh".data], "craterun".data,
        none, none, none, none, none⟩
      "aabbccdd11223344".data 42 ⟨2026, 10, 12, 0, 0, 0⟩)
  ∧ metaInvariant (metaPostWait staleRunningMeta 0)
  ∧ (refresh_status (fun _ => true) staleRunningMeta).1.pid
      = staleRunningMeta.pid
  ∧ (refresh_status (fun _ => true) staleRunningMeta).1.exit_code
      = staleRunningMeta.exit_code
  ∧ ((refresh_status (fun _ => true) staleRunningMeta).2 = true →
      (refresh_status (fun _ => true) staleRunningMeta).1.status
        = ContainerStatus.stopped
      ∧ staleRunningMeta.status = ContainerStatus.running
      ∧ pid_alive (fun _ => true) staleRunningMeta.pid = false) :=
  meta_writes_invariant _ _ 42 _ (by decide) staleRunningMeta 0 _

/-- The configuration of a run whose rootfs argument is the relative path
"rootfs". -/
def relRootfsConfig : ContainerConfig :=
  { rootfs := "rootfs".data
    cmd := ["/bin/sh".data]
    hostname := "craterun".data
    memory := none
    cpu := none
    pids := none
    uid := none
    gid := none }

/-- C3: the persisted `rootfs` is the caller-supplied string, not the
canonical absolute path computed before the fork.  With the relative path
"rootfs" canonicalizing to "/home/user/rootfs", the saved metadata still
carries "rootfs" — contradicting both the claim and the `ContainerMeta.rootfs`
doc comment ("Absolute path to the root filesystem"). -/
theorem run_persists_original_rootfs :
    (runSavedMeta (fun _ => "/home/user/rootfs".data) relRootfsConfig
        "aabbccdd11223344".data 42 ⟨2026, 10, 12, 0, 0, 0⟩).2.rootfs
      = "rootfs".data
  ∧ (runSavedMeta (fun _ => "/home/user/rootfs".data) relRootfsConfig
        "aabbccdd11223344".data 42 ⟨2026, 10, 12, 0, 0, 0⟩).2.rootfs
      ≠ (runSavedMeta (fun _ => "/home/user/rootfs".data) relRootfsConfig
        "aabbccdd11223344".data 42 ⟨2026, 10, 12, 0, 0, 0⟩).1 := by
  exact ⟨rfl, by decide⟩

/-! ## `src/platform/linux/process.rs`: wait-status translation (C4) -/

/-- The `nix::sys::wait::WaitStatus` variants a `waitpid(pid, None)` call can
produce (ptrace variants folded into `stopped`, which the code treats the same
way: neither Exited nor Signaled). -/
inductive WaitStatus
  | exited (pid : Nat) (code : Int)
  | signaled (pid : Nat) (sig : Nat) (coreDump : Bool)
  | stopped (pid : Nat) (sig : Nat)
  | continued (pid : Nat)
  | stillAlive
  deriving DecidableEq, Repr

/-- `nix::errno::Errno`, reduced to the one distinction `wait_for_child`
makes: `EINTR` versus anything else. -/
inductive Errno
  | eintr
  | other (msg : List Char)
  deriving DecidableEq, Repr

/-- What one iteration of the outer wait loop does with a `waitpid` result. -/
inductive LoopStep
  | ret (code : Int)
  | rewait
  | bail (msg : List Char)
  deriving DecidableEq, Repr

/-- `process.rs`, `wait_for_child` loop body: `Exited` returns the code,
`Signaled` returns `128 + sig`, any other `Ok` status re-waits, `EINTR`
re-waits, any other error bails. -/
def waitStep (r : Except Errno WaitStatus) : LoopStep :=
  match r with
  | .ok (.exited _ code) => .ret code
  | .ok (.signaled _ sig _) => .ret (128 + sig)
  | .ok _ => .rewait
  | .error .eintr => .rewait
  | .error (.other msg) => .bail ("waitpid failed: ".data ++ msg)

/-- `process.rs`, `wait_for_child`, run against a finite schedule of `waitpid`
results (the loop consumes one result per iteration; an exhausted schedule is
reported as an error so that the model stays total). -/
def wait_for_child : List (Except Errno WaitStatus) → Except (List Char) Int
  | [] => .error "wait schedule exhausted".data
  | r :: rest =>
    match waitStep r with
    | .ret code => .ok code
    | .bail msg => .error msg
    | .rewait => wait_for_child rest

/-- `process.rs`, `child_process` inner-parent branch: a single `waitpid` on
the container init, whose status is mapped `Exited → c`,
`Signaled → 128 + sig`, anything else `→ 1`; the inner parent then calls
`std::process::exit` with this code. -/
def innerWaitCode (status : WaitStatus) : Int :=
  match status with
  | .exited _ c => c
  | .signaled _ sig _ => 128 + sig
  | _ => 1

/-- Whether a wait status is one of the two settled forms (`Exited` or
`Signaled`) that both translations agree on. -/
def isSettled (s : WaitStatus) : Bool :=
  match s with
  | .exited _ _ => true
  | .signaled _ _ _ => true
  | _ => false

/-- C4 counterexample: the two wait translations do not treat "any other wait
status" the same way.  For a `Stopped` status, the outer loop re-waits, but
the inner fork-parent produces exit code 1 (and exits with it) instead of
re-waiting. -/
theorem inner_wait_no_rewait :
    waitStep (Except.ok (WaitStatus.stopped 7 19)) = LoopStep.rewait
  ∧ innerWaitCode (WaitStatus.stopped 7 19) = 1
  ∧ LoopStep.ret (innerWaitCode (WaitStatus.stopped 7 19)) ≠ LoopStep.rewait := by
  decide

/-- C4 amended: both translations map `Exited(c)` to `c` and `Signaled(sig)`
to `128 + sig`; on any other status the outer loop re-waits while the inner
fork-parent exits with code 1; the outer parent then observes the inner
parent's translated code through its own `Exited` result. -/
theorem wait_translation (p : Nat) (c : Int) (sig : Nat) (dump : Bool)
    (s : WaitStatus) (hs : isSettled s = false)
    (rest : List (Except Errno WaitStatus)) :
    innerWaitCode (WaitStatus.exited p c) = c
  ∧ waitStep (Except.ok (WaitStatus.exited p c)) = LoopStep.ret c
  ∧ innerWaitCode (WaitStatus.signaled p sig dump) = 128 + sig
  ∧ waitStep (Except.ok (WaitStatus.signaled p sig dump))
      = LoopStep.ret (128 + sig)
  ∧ innerWaitCode s = 1
  ∧ waitStep (Except.ok s) = LoopStep.rewait
  ∧ wait_for_child (Except.ok s :: rest) = wait_for_child rest
  ∧ waitStep (Except.error Errno.eintr) = LoopStep.rewait
  ∧ wait_for_child (Except.error Errno.eintr :: rest) = wait_for_child rest
  ∧ wait_for_child [Except.ok (WaitStatus.exited p (innerWaitCode s))]
      = Except.ok (innerWaitCode s) := by
  cases s <;> simp_all [innerWaitCode, waitStep, wait_for_child, isSettled]

/-- C4 amended witness: the translation agreement at `Exited(3, 0)`,
`Signaled(3, 15)` and the divergence status `Stopped(3, 19)`. -/
theorem wait_translation_witness :
    innerWaitCode (WaitStatus.exited 3 0) = 0
  ∧ waitStep (Except.ok (WaitStatus.exited 3 0)) = LoopStep.ret 0
  ∧ innerWaitCode (WaitStatus.signaled 3 15 false) = 128 + 15
  ∧ waitStep (Except.ok (WaitStatus.signaled 3 15 false))
      = LoopStep.ret (128 + 15)
  ∧ innerWaitCode (WaitStatus.stopped 3 19) = 1
  ∧ waitStep (Except.ok (WaitStatus.stopped 3 19)) = LoopStep.rewait
  ∧ wait_for_child [Except.ok (WaitStatus.stopped 3 19)] = wait_for_child []
  ∧ waitStep (Except.error Errno.eintr) = LoopStep.rewait
  ∧ wait_for_child [Except.error Errno.eintr] = wait_for_child []
  ∧ wait_for_child [Except.ok (WaitStatus.exited 3
        (innerWaitCode (WaitStatus.stopped 3 19)))]
      = Except.ok (innerWaitCode (WaitStatus.stopped 3 19)) :=
  wait_translation 3 0 15 false (WaitStatus.stopped 3 19) (by decide) []

/-! ## `src/platform/linux/namespaces.rs`, `cgroups.rs` and the child launch
ordering (C5) -/

/-- `namespaces.rs`: one namespace flag of the container clone flag set. -/
inductive NsFlag
  | newns
  | newpid
  | newuts
  | newipc
  | newnet
  deriving DecidableEq, Repr

/-- `namespaces.rs`, `container_clone_flags`: mount, PID, UTS, IPC, net. -/
def container_clone_flags : List NsFlag :=
  [NsFlag.newns, NsFlag.newpid, NsFlag.newuts, NsFlag.newipc, NsFlag.newnet]

/-- A write of `value` to the file at `path`. -/
structure FsWrite where
  path : List Char
  value : List Char
  deriving DecidableEq, Repr

/-- `cgroups.rs`, `add_process`: write the decimal PID to the `cgroup.procs`
file of the given cgroup directory. -/
def add_process (cgroup : List Char) (pid : Nat) : FsWrite :=
  { path := cgroup ++ "/".data ++ "cgroup.procs".data
    value := natDigits pid }

/-- The observable events of the outer child's launch path. -/
inductive ChildEvent
  | unshare (flags : List NsFlag)
  | setupCgroup
  | attachSelf (w : FsWrite)
  | innerFork
  deriving DecidableEq, Repr

/-- Success or failure of each fallible step of `child_process`, as decided by
the kernel at run time. -/
structure ChildEnv where
  unshareOk : Bool
  setupOk : Bool
  attachOk : Bool

/-- `process.rs`, `child_process` steps 1-3 as an event trace: unshare the
namespace flag set, set up the cgroup (yielding `cgPath`), attach the current
process (`selfPid`) to its `cgroup.procs`, then the inner fork.  When a step
fails, the function returns early with an error and no later event occurs. -/
def childTrace (env : ChildEnv) (cgPath : List Char) (selfPid : Nat) :
    List ChildEvent :=
  ChildEvent.unshare container_clone_flags ::
    (if env.unshareOk then
      ChildEvent.setupCgroup ::
        (if env.setupOk then
          ChildEvent.attachSelf (add_process cgPath selfPid) ::
            (if env.attachOk then [ChildEvent.innerFork] else [])
        else [])
    else [])

/-- C5: in every execution of the child launch path that reaches the inner
fork, the trace is exactly unshare, cgroup setup, attach-self, inner fork — so
the attach to `cgroup.procs` (a write of the current PID to that file) happens
strictly after the unshare and strictly before the inner fork. -/
theorem attach_after_unshare_before_fork (a b c : Bool) (cg : List Char)
    (selfPid : Nat) :
    (ChildEvent.innerFork ∈ childTrace ⟨a, b, c⟩ cg selfPid →
      childTrace ⟨a, b, c⟩ cg selfPid
        = [ChildEvent.unshare container_clone_flags,
           ChildEvent.setupCgroup,
           ChildEvent.attachSelf (add_process cg selfPid),
           ChildEvent.innerFork])
  ∧ (add_process cg selfPid).path = cg ++ "/cgroup.procs".data
  ∧ (add_process cg selfPid).value = natDigits selfPid := by
  refine ⟨?_, ?_, rfl⟩
  · intro h
    cases a <;> cases b <;> cases c <;> simp [childTrace] at h ⊢
  · show cg ++ "/".data ++ "cgroup.procs".data = cg ++ "/cgroup.procs".data
    rw [List.append_assoc]
    congr 1

/-- C5 witness: the fully successful launch at a concrete cgroup path and
PID 7 produces the four events in order. -/
theorem attach_after_unshare_before_fork_witness :
    childTrace ⟨true, true, true⟩ "/sys/fs/cgroup/craterun/ab12".data 7
      = [ChildEvent.unshare container_clone_flags,
         ChildEvent.setupCgroup,
         ChildEvent.attachSelf
           (add_process "/sys/fs/cgroup/craterun/ab12".data 7),
         ChildEvent.innerFork]
  ∧ (add_process "/sys/fs/cgroup/craterun/ab12".data 7).path
      = "/sys/fs/cgroup/craterun/ab12".data ++ "/cgroup.procs".data
  ∧ (add_process "/sys/fs/cgroup/craterun/ab12".data 7).value = natDigits 7 :=
  ⟨(attach_after_unshare_before_fork true true true _ 7).1 (by decide),
   (attach_after_unshare_before_fork true true true _ 7).2.1,
   (attach_after_unshare_before_fork true true true _ 7).2.2⟩

/-! ## `src/cli/commands.rs`, `cmd_ps` (C7, C9) -/

/-- Rust byte-range slicing `&s[..n]` on a `str`: `some` of the character
prefix whose UTF-8 encoding is exactly `n` bytes, `none` when `n` is out of
range or does not fall on a character boundary (in Rust: a panic). -/
def byteSlicePrefix : List Char → Nat → Option (List Char)
  | _, 0 => some []
  | [], _ + 1 => none
  | ch :: rest, n + 1 =>
      if utf8Len ch ≤ n + 1 then
        (byteSlicePrefix rest (n + 1 - utf8Len ch)).map (fun t => ch :: t)
      else none

/-- Rust `Vec<String>::join(" ")`. -/
def joinSpace (cmd : List (List Char)) : List Char :=
  List.intercalate " ".data cmd

/-- `commands.rs`, `cmd_ps`: the COMMAND cell.  When the joined command is
longer than 40 bytes it becomes the 37-byte prefix followed by `"..."`;
`none` models the panic of `&cmd_str[..37]` off a character boundary. -/
def cmdDisplay (cmd : List (List Char)) : Option (List Char) :=
  if strBytes (joinSpace cmd) > 40 then
    (byteSlicePrefix (joinSpace cmd) 37).map (fun t => t ++ "...".data)
  else some (joinSpace cmd)

/-- `commands.rs`, `cmd_ps`: the CONTAINER ID cell,
`&meta.id[..16.min(meta.id.len())]`. -/
def idDisplay (id : List Char) : Option (List Char) :=
  byteSlicePrefix id (min 16 (strBytes id))

/-- Zero-padded two-digit decimal field, as chrono renders the specifiers
`%m`, `%d`, `%H`, `%M`, `%S` for their in-range values. -/
def pad2 (n : Nat) : List Char :=
  [digitChar (n / 10 % 10), digitChar (n % 10)]

/-- Zero-padded four-digit `%Y`, as chrono renders common-era years. -/
def pad4 (n : Nat) : List Char :=
  [digitChar (n / 1000 % 10), digitChar (n / 100 % 10),
   digitChar (n / 10 % 10), digitChar (n % 10)]

/-- `commands.rs`, `cmd_ps`:
`meta.created_at.format("%Y-%m-%d %H:%M:%S UTC")`, modelled from chrono's
documented format specifiers. -/
def formatCreated (t : DateTimeUtc) : List Char :=
  pad4 t.year ++ "-".data ++ pad2 t.month ++ "-".data ++ pad2 t.day
    ++ " ".data ++ pad2 t.hour ++ ":".data ++ pad2 t.minute
    ++ ":".data ++ pad2 t.second ++ " UTC".data

/-- `model.rs`, `impl Display for ContainerStatus`. -/
def statusDisplay : ContainerStatus → List Char
  | ContainerStatus.running => "running".data
  | ContainerStatus.stopped => "stopped".data
  | ContainerStatus.created => "created".data

/-- The data cells of one `cmd_ps` row. -/
structure PsRow where
  idCell : List Char
  pidCell : List Char
  statusCell : List Char
  createdCell : List Char
  commandCell : List Char
  deriving DecidableEq, Repr

/-- `commands.rs`, `cmd_ps` loop body for one metadata record: build the five
cells (the COMMAND cell is computed first, as in the source, then the ID
slice); `none` models a panic while building the row. -/
def psRow (meta : ContainerMeta) : Option PsRow :=
  (cmdDisplay meta.cmd).bind (fun cmdc =>
    (idDisplay meta.id).map (fun idc =>
      { idCell := idc
        pidCell := if meta.pid > 0 then natDigits meta.pid else "-".data
        statusCell := statusDisplay meta.status
        createdCell := formatCreated meta.created_at
        commandCell := cmdc }))

/-- A decimal digit character. -/
def isDigitChar (c : Char) : Prop :=
  48 ≤ c.toNat ∧ c.toNat ≤ 57

theorem utf8Len_ascii {c : Char} (h : c.toNat < 128) : utf8Len c = 1 := by
  simp [utf8Len]
  omega

theorem strBytes_ascii {s : List Char} (h : ∀ c ∈ s, c.toNat < 128) :
    strBytes s = s.length := by
  induction s with
  | nil => rfl
  | cons c t ih =>
      have hc : utf8Len c = 1 := utf8Len_ascii (h c (by simp))
      have ht := ih (fun x hx => h x (by simp [hx]))
      simp [strBytes] at ht ⊢
      omega

theorem byteSlicePrefix_ascii {s : List Char} (h : ∀ c ∈ s, c.toNat < 128) :
    ∀ n ≤ s.length, byteSlicePrefix s n = some (s.take n) := by
  induction s with
  | nil =>
      intro n hn
      have h0 : n = 0 := Nat.le_zero.mp (by simpa using hn)
      subst h0
      rfl
  | cons ch rest ih =>
      intro n hn
      cases n with
      | zero => rfl
      | succ m =>
          have hc : utf8Len ch = 1 := utf8Len_ascii (h ch (by simp))
          have := ih (fun x hx => h x (by simp [hx])) m (by simpa using hn)
          simp [byteSlicePrefix, hc, this]

theorem byteSlicePrefix_eq_take {s r : List Char} :
    ∀ {n : Nat}, byteSlicePrefix s n = some r →
      ∃ k, k ≤ s.length ∧ r = s.take k ∧ strBytes (s.take k) = n := by
  induction s generalizing r with
  | nil =>
      intro n hn
      cases n with
      | zero => exact ⟨0, by simp, by simpa [byteSlicePrefix] using hn.symm, rfl⟩
      | succ m => simp [byteSlicePrefix] at hn
  | cons ch rest ih =>
      intro n hn
      cases n with
      | zero =>
          exact ⟨0, by simp, by simpa [byteSlicePrefix] using hn.symm, rfl⟩
      | succ m =>
          by_cases hle : utf8Len ch ≤ m + 1
          · simp only [byteSlicePrefix, if_pos hle, Option.map_eq_some'] at hn
            rcases hn with ⟨t, ht, hr⟩
            rcases ih ht with ⟨k, hk, htk, hb⟩
            refine ⟨k + 1, by simpa using hk, ?_, ?_⟩
            · simp [← hr, htk]
            · simp [strBytes] at hb ⊢
              omega
          · simp [byteSlicePrefix, if_neg hle] at hn

theorem digitChar_isDigit {d : Nat} (h : d < 10) : isDigitChar (digitChar d) := by
  interval_cases d <;> exact ⟨by decide, by decide⟩

theorem pad2_digits (n : Nat) : ∀ c ∈ pad2 n, isDigitChar c := by
  intro c hc
  simp [pad2] at hc
  rcases hc with h | h <;> subst h <;>
    exact digitChar_isDigit (Nat.mod_lt _ (by omega))

theorem pad4_digits (n : Nat) : ∀ c ∈ pad4 n, isDigitChar c := by
  intro c hc
  simp [pad4] at hc
  rcases hc with h | h | h | h <;> subst h <;>
    exact digitChar_isDigit (Nat.mod_lt _ (by omega))

/-- C7 counterexample: a 45-character ASCII command is truncated with the
three ASCII dots `"..."`, not with the single ellipsis character. -/
theorem ps_command_ascii_dots :
    cmdDisplay [List.replicate 45 'a']
      = some (List.replicate 37 'a' ++ "...".data)
  ∧ List.replicate 37 'a' ++ "...".data
      ≠ List.replicate 37 'a' ++ ['…'] := by
  constructor
  · decide
  · decide

/-- C7 amended: for a metadata record with an ASCII container ID, the printed
row truncates the ID to its first 16 characters, renders CREATED in the
`YYYY-MM-DD HH:MM:SS UTC` shape (four-digit year, two-digit fields, length
23), and space-joins the command, truncating it — when longer than 40 bytes
and byte 37 is a character boundary — to its first 37 bytes followed by the
three ASCII dots `"..."`. -/
theorem ps_row_format (meta : ContainerMeta)
    (hid : ∀ c ∈ meta.id, c.toNat < 128) :
    ∀ row, psRow meta = some row →
      row.idCell = meta.id.take 16
    ∧ row.createdCell = formatCreated meta.created_at
    ∧ (formatCreated meta.created_at).length = 23
    ∧ (∃ y mo d h mi s,
        y.length = 4 ∧ mo.length = 2 ∧ d.length = 2 ∧ h.length = 2
        ∧ mi.length = 2 ∧ s.length = 2
        ∧ (∀ c ∈ y ++ mo ++ d ++ h ++ mi ++ s, isDigitChar c)
        ∧ formatCreated meta.created_at
            = y ++ "-".data ++ mo ++ "-".data ++ d ++ " ".data ++ h
              ++ ":".data ++ mi ++ ":".data ++ s ++ " UTC".data)
    ∧ (strBytes (joinSpace meta.cmd) ≤ 40 →
        row.commandCell = joinSpace meta.cmd)
    ∧ (strBytes (joinSpace meta.cmd) > 40 →
        ∃ k, strBytes ((joinSpace meta.cmd).take k) = 37
          ∧ row.commandCell = (joinSpace meta.cmd).take k ++ "...".data) := by
  intro row hrow
  have hb : strBytes meta.id = meta.id.length := strBytes_ascii hid
  have hident : idDisplay meta.id = some (meta.id.take 16) := by
    have h1 : byteSlicePrefix meta.id (min 16 meta.id.length)
        = some (meta.id.take (min 16 meta.id.length)) :=
      byteSlicePrefix_ascii hid _ (Nat.min_le_right _ _)
    have h2 : meta.id.take (min 16 meta.id.length) = meta.id.take 16 := by
      rw [← List.take_take, List.take_length]
    rw [idDisplay, hb, h1, h2]
  rcases hcd : cmdDisplay meta.cmd with _ | cmdc
  · rw [psRow, hident, hcd] at hrow
    cases hrow
  · rw [psRow, hident, hcd] at hrow
    simp only [Option.some_bind, Option.map_some', Option.some.injEq] at hrow
    subst hrow
    refine ⟨rfl, rfl, by simp [formatCreated, pad4, pad2], ?_, ?_, ?_⟩
    · refine ⟨pad4 meta.created_at.year, pad2 meta.created_at.month,
        pad2 meta.created_at.day, pad2 meta.created_at.hour,
        pad2 meta.created_at.minute, pad2 meta.created_at.second,
        rfl, rfl, rfl, rfl, rfl, rfl, ?_, rfl⟩
      intro c hc
      simp only [List.mem_append] at hc
      rcases hc with ((((hc | hc) | hc) | hc) | hc) | hc
      · exact pad4_digits _ c hc
      all_goals exact pad2_digits _ c hc
    · intro hle
      rw [cmdDisplay, if_neg (by omega)] at hcd
      simpa using hcd.symm
    · intro hgt
      rw [cmdDisplay, if_pos (by omega)] at hcd
      rcases Option.map_eq_some'.mp hcd with ⟨t, ht, hcm⟩
      rcases byteSlicePrefix_eq_take ht with ⟨k, _, htk, hbk⟩
      exact ⟨k, hbk, by rw [← hcm, htk]⟩

/-- A stopped container record with a 45-character command. -/
def longCmdMeta : ContainerMeta :=
  { staleRunningMeta with
      status := ContainerStatus.stopped
      cmd := [List.replicate 45 'a'] }

/-- The row `cmd_ps` prints for `longCmdMeta`. -/
def longCmdRow : PsRow :=
  { idCell := "aabbccdd11223344".data
    pidCell := natDigits 5
    statusCell := "stopped".data
    createdCell := formatCreated ⟨2026, 10, 12, 0, 0, 0⟩
    commandCell := List.replicate 37 'a' ++ "...".data }

/-- C7 amended witness: the concrete row for `longCmdMeta`. -/
theorem ps_row_format_witness :
    longCmdRow.idCell = longCmdMeta.id.take 16
  ∧ longCmdRow.createdCell = formatCreated longCmdMeta.created_at
  ∧ (formatCreated longCmdMeta.created_at).length = 23
  ∧ (∃ y mo d h mi s,
      y.length = 4 ∧ mo.length = 2 ∧ d.length = 2 ∧ h.length = 2
      ∧ mi.length = 2 ∧ s.length = 2
      ∧ (∀ c ∈ y ++ mo ++ d ++ h ++ mi ++ s, isDigitChar c)
      ∧ formatCreated longCmdMeta.created_at
          = y ++ "-".data ++ mo ++ "-".data ++ d ++ " ".data ++ h
            ++ ":".data ++ mi ++ ":".data ++ s ++ " UTC".data)
  ∧ (strBytes (joinSpace longCmdMeta.cmd) ≤ 40 →
      longCmdRow.commandCell = joinSpace longCmdMeta.cmd)
  ∧ (strBytes (joinSpace longCmdMeta.cmd) > 40 →
      ∃ k, strBytes ((joinSpace longCmdMeta.cmd).take k) = 37
        ∧ longCmdRow.commandCell
            = (joinSpace longCmdMeta.cmd).take k ++ "...".data) :=
  ps_row_format longCmdMeta (by decide) longCmdRow (by decide)

/-- A container record whose space-joined command is 42 bytes long with a
two-byte character straddling byte offset 37. -/
def multibyteCmdMeta : ContainerMeta :=
  { staleRunningMeta with
      cmd := [List.replicate 36 'a' ++ ['é'] ++ List.replicate 4 'x'] }

/-- C9: on a command whose 42-byte joined form has a multi-byte character
straddling byte offset 37, the COMMAND cell construction hits the
out-of-boundary byte slice `&cmd_str[..37]` and the row build panics
(modelled by `none`) instead of printing a truncated row. -/
theorem ps_multibyte_slice_panics :
    strBytes (joinSpace multibyteCmdMeta.cmd) = 42
  ∧ cmdDisplay multibyteCmdMeta.cmd = none
  ∧ psRow multibyteCmdMeta = none := by
  refine ⟨by decide, by decide, by decide⟩

/-! ## `src/platform/linux/process.rs`: the setup-error pipe protocol (C1) -/

/-- A file descriptor, tracked by its close-on-exec flag. -/
structure Fd where
  cloexec : Bool
  deriving DecidableEq, Repr

/-- `process.rs`, `run_container`: the setup pipe `(read_end, write_end)` is
created through `nix::unistd::pipe()`, a wrapper of plain `pipe(2)`: neither
end carries close-on-exec, and the code immediately converts both ends to raw
fds without ever setting the flag. -/
def pipe_sys : Fd × Fd := (⟨false⟩, ⟨false⟩)

/-- `execve(2)`: an open descriptor remains open across a successful execve
unless its close-on-exec flag is set. -/
def survivesExecve (f : Fd) : Bool := !f.cloexec

/-- `process.rs`, `run_container` child branch: the data written to the
pipe's write end after `child_process` returns `r` — the formatted error
message on failure, nothing otherwise. -/
def childPipeWrites (r : Except (List Char) Unit) : List (List Char) :=
  match r with
  | .error msg => [msg]
  | .ok _ => []

/-- `process.rs`, `run_container` child branch: after reporting, the child
closes the write end and calls `std::process::exit(1)`. -/
def childExitStatus (_r : Except (List Char) Unit) : Nat := 1

/-- The parent's `read_to_string` up to EOF: everything written to the pipe
before all copies of the write end were closed. -/
def readToEof (writes : List (List Char)) : List Char :=
  writes.flatten

/-- `process.rs`, `parent_process`: fail — quoting the buffer as cause — iff
the buffer read from the pipe is non-empty. -/
def parentSetupCheck (buf : List Char) : Except (List Char) Unit :=
  if buf.isEmpty then Except.ok ()
  else Except.error ("container child setup failed: ".data ++ buf)

/-- C1 counterexample: the claim's mechanism is false for this code.  The
setup pipe is created by `pipe(2)` without close-on-exec, so a successful
execve does not destroy the write end — the descriptor survives into the
exec'd container process, and EOF on the read end arrives only once every
process holding a copy of the write end has exited. -/
theorem execve_keeps_write_end :
    pipe_sys.2.cloexec = false ∧ survivesExecve pipe_sys.2 = true := by
  decide

/-- C1 amended: a failure in the child between fork and execve writes its
message to the pipe before the child exits with status 1, and the parent
fails with that message as cause exactly when its read to EOF yields a
non-empty buffer; on the success path nothing is ever written, so the read
yields EOF with no data — but not because execve destroys the write end: the
write end, created without close-on-exec, survives execve. -/
theorem setup_pipe_protocol (msg : List Char) (hmsg : msg ≠ []) :
    childPipeWrites (Except.error msg) = [msg]
  ∧ childExitStatus (Except.error msg) = 1
  ∧ parentSetupCheck (readToEof (childPipeWrites (Except.error msg)))
      = Except.error ("container child setup failed: ".data ++ msg)
  ∧ childPipeWrites (Except.ok ()) = []
  ∧ parentSetupCheck (readToEof (childPipeWrites (Except.ok ())))
      = Except.ok ()
  ∧ (∀ buf : List Char,
      (∃ e, parentSetupCheck buf = Except.error e) ↔ buf ≠ [])
  ∧ survivesExecve pipe_sys.2 = true := by
  refine ⟨rfl, rfl, ?_, rfl, rfl, ?_, rfl⟩
  · cases msg with
    | nil => exact absurd rfl hmsg
    | cons c t => simp [readToEof, childPipeWrites, parentSetupCheck]
  · intro buf
    constructor
    · rintro ⟨e, he⟩ hbuf
      subst hbuf
      simp [parentSetupCheck] at he
    · intro hbuf
      cases buf with
      | nil => exact absurd rfl hbuf
      | cons c t => exact ⟨_, rfl⟩

/-- C1 amended witness: the protocol at the concrete message "oops". -/
theorem setup_pipe_protocol_witness :
    childPipeWrites (Except.error "oops".data) = ["oops".data]
  ∧ childExitStatus (Except.error "oops".data) = 1
  ∧ parentSetupCheck (readToEof (childPipeWrites (Except.error "oops".data)))
      = Except.error ("container child setup failed: ".data ++ "oops".data)
  ∧ childPipeWrites (Except.ok ()) = []
  ∧ parentSetupCheck (readToEof (childPipeWrites (Except.ok ())))
      = Except.ok ()
  ∧ (∀ buf : List Char,
      (∃ e, parentSetupCheck buf = Except.error e) ↔ buf ≠ [])
  ∧ survivesExecve pipe_sys.2 = true :=
  setup_pipe_protocol "oops".data (by decide)

end CrateRun
